import Mathlib

/-!
Verification development for the revenue-extraction core in
src/textract_poc/extract_revenue.py.

The Python module processes the flat list of layout blocks returned by a
document-analysis service.  Every definition below is a shallow embedding of
the corresponding Python function, with Python semantics modelled explicitly:

* Python strings are Lean `String`; `str.strip` / `str.lower` / substring
  `in` are `pyStrip` / `pyLower` / `pyIn`;
* Python list indexing (which accepts negative indices and raises
  `IndexError` outside `[-len, len)`) is `pyIdx`; fallible code returns
  `Option`, with `none` standing for an uncaught Python exception;
* Python dicts keyed by block id are association lists with
  insert-overwrite semantics (`dictInsert` / `dictGet?`).
-/

/-- Characters removed by Python `str.strip()` (ASCII whitespace). -/
def pyIsSpace (c : Char) : Bool :=
  c == ' ' || c == '\t' || c == '\n' || c == '\r' || c == '\x0b' || c == '\x0c'

/-- Python `s.strip()`: drop leading and trailing whitespace. -/
def pyStrip (s : String) : String :=
  ⟨((s.data.dropWhile pyIsSpace).reverse.dropWhile pyIsSpace).reverse⟩

/-- Python `s.lower()` (the inputs of interest are ASCII). -/
def pyLower (s : String) : String :=
  ⟨s.data.map Char.toLower⟩

/-- Python substring test `needle in hay`. -/
def pyIn (needle hay : String) : Bool :=
  decide (needle.data <:+: hay.data)

/-- Python list index resolution: valid for `-n ≤ i < n`, negative indices
count from the end; `none` models an `IndexError`. -/
def pyIdx (n : Nat) (i : Int) : Option Nat :=
  if 0 ≤ i then (if i < (n : Int) then some i.toNat else none)
  else (if 0 ≤ (n : Int) + i then some ((n : Int) + i).toNat else none)

/-- One entry of a block's `Relationships` list: a type tag (`CHILD`,
`MERGED_CELL`, ...) and the target block ids. -/
structure Relationship where
  type : String
  ids : List String
deriving DecidableEq, Repr

/-- A Textract block (`Dict` in the Python source), restricted to the keys the
module reads: `Id`, `BlockType`, `Page`, `Text`, `RowIndex`, `ColumnIndex`,
`Relationships`.  Optional keys are `Option` (absent key = `none`). -/
structure Block where
  id : String
  blockType : String
  page : Option Int := none
  text : Option String := none
  rowIndex : Option Int := none
  columnIndex : Option Int := none
  relationships : List Relationship := []
deriving DecidableEq, Repr

/-- Association list standing for a Python dict with string keys. -/
abbrev PyDict (α : Type) := List (String × α)

/-- Python dict assignment `m[k] = v`: overwrite in place if the key exists,
otherwise append. -/
def dictInsert (m : PyDict α) (k : String) (v : α) : PyDict α :=
  if m.any (fun p => p.1 == k) then
    m.map (fun p => if p.1 == k then (k, v) else p)
  else m ++ [(k, v)]

/-- Python `m.get(k)`: the value stored at `k`, if any. -/
def dictGet? (m : PyDict α) (k : String) : Option α :=
  (m.find? (fun p => p.1 == k)).map (fun p => p.2)

/-- The child ids a block contributes to the index: ids of every
`CHILD` or `MERGED_CELL` relationship, concatenated in relationship order
(the inner loop of `build_block_index`). -/
def indexChildIds (b : Block) : List String :=
  b.relationships.foldl
    (fun acc rel =>
      if rel.type == "CHILD" || rel.type == "MERGED_CELL" then acc ++ rel.ids
      else acc) []

/-- Embedding of `build_block_index` (lines 29-48): returns the id-to-block
dict and the dict of non-empty child-id lists. -/
def indexStep (acc : PyDict Block × PyDict (List String)) (b : Block) :
    PyDict Block × PyDict (List String) :=
  (dictInsert acc.1 b.id b,
   if indexChildIds b ≠ [] then dictInsert acc.2 b.id (indexChildIds b)
   else acc.2)

def build_block_index (blocks : List Block) :
    PyDict Block × PyDict (List String) :=
  blocks.foldl indexStep ([], [])

/-- Embedding of `extract_text_from_block` (lines 51-70): a `WORD` block
returns its raw text; otherwise walk the ids of `CHILD` relationships,
append the text of each child of kind `WORD` whose text is non-empty, join
with single spaces and strip.  `wordStep` is the body of the inner loop over
the ids of one relationship. -/
def wordStep (id_to_block : PyDict Block) (acc2 : List String) (cid : String) :
    List String :=
  match dictGet? id_to_block cid with
  | none => acc2
  | some child =>
    if child.blockType == "WORD" then
      (if child.text.getD ("") ≠ "" then
        acc2 ++ [child.text.getD ("")] else acc2)
    else acc2

def extract_text_from_block (b : Block) (id_to_block : PyDict Block) : String :=
  if b.blockType == "WORD" then b.text.getD ("")
  else
    let frags : List String :=
      b.relationships.foldl
        (fun acc rel =>
          if rel.type != "CHILD" then acc
          else rel.ids.foldl (wordStep id_to_block) acc)
        []
    pyStrip (String.intercalate (" ") frags)

/-- Embedding of `page_contains_phrase` (lines 73-82): some `LINE`, `CELL` or
`TABLE` block on the page has text containing the phrase case-insensitively.
(The Python loop returns at the first match; as a boolean this is `any`.) -/
def page_contains_phrase (blocks : List Block) (id_to_block : PyDict Block)
    (page_number : Int) (phrase : String) : Bool :=
  blocks.any (fun b =>
    b.page == some page_number &&
    (b.blockType == "LINE" || b.blockType == "CELL" || b.blockType == "TABLE") &&
    pyIn (pyLower phrase) (pyLower (extract_text_from_block b id_to_block)))

/-- Embedding of `get_tables_on_page` (lines 85-86). -/
def get_tables_on_page (blocks : List Block) (page_number : Int) : List Block :=
  blocks.filter (fun b => b.blockType == "TABLE" && b.page == some page_number)

/-- The `CELL` children a table collects (lines 95-102 of
`build_table_matrix`): walk the ids of `CHILD` relationships, keep the blocks
present in the index whose kind is `CELL`, in order. -/
def cellStep (id_to_block : PyDict Block) (acc2 : List Block) (cid : String) :
    List Block :=
  match dictGet? id_to_block cid with
  | none => acc2
  | some child =>
    if child.blockType == "CELL" then acc2 ++ [child] else acc2

/-- The cell-collection loop of `build_table_matrix` as one function. -/
def collectCells (table_block : Block) (id_to_block : PyDict Block) : List Block :=
  table_block.relationships.foldl
    (fun acc rel =>
      if rel.type != "CHILD" then acc
      else rel.ids.foldl (cellStep id_to_block) acc)
    []

/-- One iteration of the placement loop of `build_table_matrix`
(lines 112-117).  Python evaluates `r < len(matrix) and c < len(matrix[r])
and text` and then assigns `matrix[r][c] = text`; reading `matrix[r]` or
writing `row[c]` with an index below `-len` raises, modelled as `none`. -/
def writeCell (id_to_block : PyDict Block) (matrix : List (List String))
    (cell : Block) : Option (List (List String)) :=
  if cell.rowIndex.getD 1 - 1 < (matrix.length : Int) then
    (pyIdx matrix.length (cell.rowIndex.getD 1 - 1)).bind (fun rn =>
      if cell.columnIndex.getD 1 - 1 < ((matrix.getD rn []).length : Int) then
        if extract_text_from_block cell id_to_block ≠ "" then
          (pyIdx (matrix.getD rn []).length (cell.columnIndex.getD 1 - 1)).bind
            (fun cn =>
              some (matrix.set rn
                ((matrix.getD rn []).set cn
                  (extract_text_from_block cell id_to_block))))
        else some matrix
      else some matrix)
  else some matrix

/-- Embedding of `build_table_matrix` (lines 89-119): collect `CELL`
children, size the grid by the maximum `RowIndex` / `ColumnIndex` (missing
indices count 0 here), fill with empty strings, then run the placement loop.
`none` models a Python `IndexError` escaping the loop. -/
def build_table_matrix (table_block : Block) (id_to_block : PyDict Block) :
    Option (List (List String)) :=
  let cells := collectCells table_block id_to_block
  let max_row : Int := cells.foldl (fun m cell => max m (cell.rowIndex.getD 0)) 0
  let max_col : Int := cells.foldl (fun m cell => max m (cell.columnIndex.getD 0)) 0
  let matrix0 : List (List String) :=
    List.replicate max_row.toNat (List.replicate max_col.toNat (""))
  cells.foldlM (writeCell id_to_block) matrix0

/-- Embedding of `normalize` (lines 122-123). -/
def normalizeStr (s : String) : String :=
  pyLower (pyStrip s)

/-- The comparison applied to each candidate cell text in both finders
(lines 134 and 144): normalized equality or substring containment of the
(already normalized) target in the normalized cell text. -/
def matchCell (target : String) (value : String) : Bool :=
  normalizeStr value == target || pyIn target (normalizeStr value)

/-- Scan of the header rows in `find_column_index_by_header`
(lines 132-135): first row with a matching cell wins, returning the cell's
column position. -/
def findColRows (target : String) : List (List String) → Option Nat
  | [] => none
  | row :: rest =>
    match row.findIdx? (matchCell target) with
    | some idx => some idx
    | none => findColRows target rest

/-- Embedding of `find_column_index_by_header` (lines 126-136). -/
def find_column_index_by_header (table : List (List String))
    (header_query : String) : Option Nat :=
  let target := normalizeStr header_query
  if table.isEmpty then none
  else findColRows target (table.take 2)

/-- The enumerated scan of `find_row_index_by_label` (lines 141-145):
empty rows are skipped but still advance the row counter. -/
def findRowFrom (target : String) : List (List String) → Nat → Option Nat
  | [], _ => none
  | row :: rest, r_idx =>
    match row with
    | [] => findRowFrom target rest (r_idx + 1)
    | v :: _ =>
      if matchCell target v then some r_idx
      else findRowFrom target rest (r_idx + 1)

/-- Embedding of `find_row_index_by_label` (lines 139-146). -/
def find_row_index_by_label (table : List (List String)) (label : String) :
    Option Nat :=
  findRowFrom (normalizeStr label) table 0

/-- Lines 190-196 of the orchestrator: header search when a non-empty target
year is supplied (Python truthiness makes `""` count as unsupplied), then the
second-column fallback. -/
def headerLookup (matrix : List (List String)) (target_year : Option String) :
    Option Nat :=
  match target_year with
  | some ty =>
    if ty = "" then none else find_column_index_by_header matrix ty
  | none => none

def resolveColumn (matrix : List (List String)) (target_year : Option String) :
    Option Nat :=
  match headerLookup matrix target_year with
  | some idx => some idx
  | none => if 2 ≤ (matrix.headD []).length then some 1 else none

/-- Lines 186-207 of the orchestrator, for one already-built matrix: the
guard on an empty matrix or empty first row, column and row resolution, and
the final bounds-checked strip-and-test of the resolved cell.  `none` means
the Python loop falls through to the next table. -/
def resolveFromMatrix (target_page : Int) (matrix : List (List String))
    (target_year : Option String) : Option (String × String) :=
  if matrix.isEmpty || (matrix.headD []).isEmpty then none
  else
    match resolveColumn matrix target_year,
          find_row_index_by_label matrix ("Revenue") with
    | some year_col_idx, some revenue_row_idx =>
      let row := matrix.getD revenue_row_idx []
      if year_col_idx < row.length then
        let value := pyStrip (row.getD year_col_idx (""))
        if value ≠ "" then
          some (value,
            "page=" ++ toString target_page ++
            ", table_extracted_rows=" ++ toString matrix.length ++
            " cols=" ++ toString (matrix.headD []).length)
        else none
      else none
    | _, _ => none

/-- The per-table body of the orchestrator loop (lines 184-207): build the
matrix, then resolve.  Outer `none` is a Python exception; `some none` means
the table yielded nothing and the loop continues. -/
def tryTable (id_to_block : PyDict Block) (target_page : Int)
    (target_year : Option String) (table_block : Block) :
    Option (Option (String × String)) :=
  (build_table_matrix table_block id_to_block).map
    (fun matrix => resolveFromMatrix target_page matrix target_year)

/-- The orchestrator loop over the tables of the target page in order, with
early exit on the first success. -/
def tryTables (id_to_block : PyDict Block) (target_page : Int)
    (target_year : Option String) : List Block → Option (Option (String × String))
  | [] => some none
  | t :: rest =>
    match tryTable id_to_block target_page target_year t with
    | none => none
    | some (some res) => some (some res)
    | some none => tryTables id_to_block target_page target_year rest

/-- Python `sorted` on integers (insertion sort; extensionally equal to any
correct sort on `Int`). -/
def insertSorted (x : Int) : List Int → List Int
  | [] => [x]
  | y :: ys => if x ≤ y then x :: y :: ys else y :: insertSorted x ys

/-- Python `sorted(...)` over a list of ints. -/
def pySorted (l : List Int) : List Int :=
  l.foldr insertSorted []

/-- The page numbers present in the collection (`b.get("Page")` not None). -/
def pagesOf (blocks : List Block) : List Int :=
  blocks.filterMap (fun b => b.page)

/-- Lines 169-174: probe the sorted, de-duplicated page numbers in ascending
order and keep the first page containing the phrase. -/
def findTargetPage (blocks : List Block) (id_to_block : PyDict Block)
    (phrase : String) : Option Int :=
  (pySorted (pagesOf blocks).dedup).find?
    (fun page => page_contains_phrase blocks id_to_block page phrase)

/-- The phrase the orchestrator looks for. -/
def targetPhrase : String := "STATEMENT OF PROFIT OR LOSS"

/-- Embedding of `analyze_pdf_and_extract` from the point the service
response is in hand (lines 162-209; the boto3 call itself is out-of-scope
I/O glue per the spec).  Outer `none` models an uncaught Python exception;
otherwise the pair `(value, debug_info)` is returned. -/
def analyze_pdf_and_extract (blocks : List Block) (target_year : Option String) :
    Option (Option String × String) :=
  if blocks.isEmpty then some (none, "No blocks returned")
  else
    let id_to_block := (build_block_index blocks).1
    match findTargetPage blocks id_to_block targetPhrase with
    | none =>
      some (none,
        "Could not find page containing \x27STATEMENT OF PROFIT OR LOSS\x27")
    | some target_page =>
      let tables := get_tables_on_page blocks target_page
      if tables.isEmpty then some (none, "No tables found on target page")
      else
        match tryTables id_to_block target_page target_year tables with
        | none => none
        | some (some (value, dbg)) => some (some value, dbg)
        | some none => some (none, "Revenue not found in tables on target page")

/-! ### Loop characterizations: the relationship traversals are filterMaps -/

/-- The ids of the `CHILD` relationships of a block, flattened in order. -/
def childIdsCHILD (b : Block) : List String :=
  ((b.relationships.filter (fun rel => rel.type == "CHILD")).map
    (fun rel => rel.ids)).flatten

/-- The text fragment an id contributes in `extract_text_from_block`: present
iff the id resolves to a `WORD` block with non-empty raw text. -/
def childWordToken (id_to_block : PyDict Block) (cid : String) : Option String :=
  (dictGet? id_to_block cid).bind (fun child =>
    if child.blockType == "WORD" then
      (if child.text.getD ("") ≠ "" then some (child.text.getD ("")) else none)
    else none)

/-- The cell an id contributes in `build_table_matrix`: present iff the id
resolves to a `CELL` block. -/
def childCell (id_to_block : PyDict Block) (cid : String) : Option Block :=
  (dictGet? id_to_block cid).bind (fun child =>
    if child.blockType == "CELL" then some child else none)

/-! ### Grid machinery for the matrix builder -/

/-- The entry of a grid at 0-based `(i, j)`, defaulting to the empty string. -/
def entryAt (m : List (List String)) (i j : Nat) : String :=
  (m.getD i []).getD j ("")

/-- Both grid indices present and 1-based (at least 1). -/
def cellIdxPos (b : Block) : Prop :=
  (∃ ri : Int, b.rowIndex = some ri ∧ 1 ≤ ri) ∧
  (∃ ci : Int, b.columnIndex = some ci ∧ 1 ≤ ci)

/-- Grid indices, where present, at least 1 (missing ones default to 1 in
the placement loop, so only explicit values matter). -/
def blockIdxOk (b : Block) : Prop :=
  1 ≤ b.rowIndex.getD 1 ∧ 1 ≤ b.columnIndex.getD 1

/-- Decidable well-formedness of one collected cell against grid bounds. -/
def cellInBounds (R C : Nat) (cell : Block) : Prop :=
  cell.rowIndex ≠ none ∧ cell.columnIndex ≠ none ∧
  1 ≤ cell.rowIndex.getD 0 ∧ cell.rowIndex.getD 0 ≤ (R : Int) ∧
  1 ≤ cell.columnIndex.getD 0 ∧ cell.columnIndex.getD 0 ≤ (C : Int)

instance (R C : Nat) (cell : Block) : Decidable (cellInBounds R C cell) := by
  unfold cellInBounds
  infer_instance

/-! ### Concrete documents used by the end-to-end scenario and the
counterexamples -/

/-- A `WORD` block on page 1 with raw text `t`. -/
def mkWord (i t : String) : Block :=
  { id := i, blockType := "WORD", page := some 1, text := some t }

/-- A `CELL` block on page 1 at 1-based `(r, c)` whose `CHILD` ids are `wids`. -/
def mkCell (i : String) (r c : Int) (wids : List String) : Block :=
  { id := i, blockType := "CELL", page := some 1, rowIndex := some r,
    columnIndex := some c,
    relationships := [{ type := "CHILD", ids := wids }] }

/-- The page-1 `LINE` whose words spell the target phrase. -/
def scenarioLine : Block :=
  { id := "L1", blockType := "LINE", page := some 1,
    relationships :=
      [{ type := "CHILD", ids := ["wL1", "wL2", "wL3", "wL4", "wL5"] }] }

/-- The page-1 `TABLE` whose cells reconstruct the 2x3 scenario grid. -/
def scenarioTable : Block :=
  { id := "T1", blockType := "TABLE", page := some 1,
    relationships :=
      [{ type := "CHILD", ids := ["c11", "c12", "c13", "c21", "c22", "c23"] }] }

/-- The spec scenario document: one page holding the phrase line and a table
with header row `["", "2023", "2024"]` and data row `[revLabel, "100", "120"]`. -/
def scenarioBlocks (revLabel : String) : List Block :=
  [ scenarioLine,
    mkWord ("wL1") ("STATEMENT"), mkWord ("wL2") ("OF"), mkWord ("wL3") ("PROFIT"),
    mkWord ("wL4") ("OR"), mkWord ("wL5") ("LOSS"),
    scenarioTable,
    mkCell ("c11") 1 1 [], mkCell ("c12") 1 2 ["w12"], mkCell ("c13") 1 3 ["w13"],
    mkCell ("c21") 2 1 ["w21"], mkCell ("c22") 2 2 ["w22"],
    mkCell ("c23") 2 3 ["w23"],
    mkWord ("w12") ("2023"), mkWord ("w13") ("2024"),
    mkWord ("w21") revLabel, mkWord ("w22") ("100"), mkWord ("w23") ("120") ]

/-- Cell at (1,1) with text `A`, used by the malformed-table counterexample. -/
def cexCellA : Block :=
  { id := "A", blockType := "CELL", rowIndex := some 1, columnIndex := some 1,
    relationships := [{ type := "CHILD", ids := ["wA"] }] }

def cexWordA : Block := { id := "wA", blockType := "WORD", text := some "A" }

/-- Malformed cell claiming `RowIndex = 0`, so the placement loop computes
row position `0 - 1 = -1`, which Python list indexing aliases to the last
row of the grid. -/
def cexCellB : Block :=
  { id := "B", blockType := "CELL", rowIndex := some 0, columnIndex := some 1,
    relationships := [{ type := "CHILD", ids := ["wB"] }] }

def cexWordB : Block := { id := "wB", blockType := "WORD", text := some "B" }

def cexTable : Block :=
  { id := "T", blockType := "TABLE",
    relationships := [{ type := "CHILD", ids := ["A", "B"] }] }

/-- The same table without the malformed cell. -/
def cexTableNoB : Block :=
  { id := "T", blockType := "TABLE",
    relationships := [{ type := "CHILD", ids := ["A"] }] }

def cexDict : PyDict Block :=
  [("A", cexCellA), ("wA", cexWordA), ("B", cexCellB), ("wB", cexWordB),
   ("T", cexTable)]

/-- A cell carrying the target phrase, so its page is located. -/
def crashPhraseWord : Block :=
  { id := "w1", blockType := "WORD", page := some 1,
    text := some "STATEMENT OF PROFIT OR LOSS" }

def crashPhraseCell : Block :=
  { id := "cA", blockType := "CELL", page := some 1, rowIndex := some 1,
    columnIndex := some 1,
    relationships := [{ type := "CHILD", ids := ["w1"] }] }

/-- Malformed cell with `RowIndex = -5`: the placement loop evaluates
`len(matrix[-6])` on a 1-row grid, which raises `IndexError` in Python. -/
def crashBadCell : Block :=
  { id := "cB", blockType := "CELL", page := some 1, rowIndex := some (-5),
    columnIndex := some 1 }

def crashTable : Block :=
  { id := "T1", blockType := "TABLE", page := some 1,
    relationships := [{ type := "CHILD", ids := ["cA", "cB"] }] }

/-- A document on which the extraction core raises instead of returning. -/
def crashBlocks : List Block :=
  [crashTable, crashPhraseCell, crashBadCell, crashPhraseWord]

/-- Two distinct blocks sharing one identifier (duplicate-id collection). -/
def dupFirst : Block := { id := "X", blockType := "LINE" }

def dupSecond : Block := { id := "X", blockType := "WORD", text := some "w" }

instance (b : Block) : Decidable (blockIdxOk b) := by
  unfold blockIdxOk
  infer_instance

/-! ### Helper lemmas about the Python string primitives -/

theorem dropWhile_idem (p : α → Bool) (l : List α) :
    List.dropWhile p (List.dropWhile p l) = List.dropWhile p l := by
  induction l with
  | nil => rfl
  | cons a l ih =>
    by_cases h : p a = true
    · simp [List.dropWhile_cons, h, ih]
    · simp [List.dropWhile_cons, h]

theorem head?_dropWhile_not (p : α → Bool) (l : List α) :
    ∀ a, (List.dropWhile p l).head? = some a → p a = false := by
  induction l with
  | nil => intro a h; simp at h
  | cons x xs ih =>
    intro a h
    rw [List.dropWhile_cons] at h
    by_cases hx : p x = true
    · rw [if_pos hx] at h
      exact ih a h
    · rw [if_neg hx] at h
      simp only [List.head?_cons, Option.some.injEq] at h
      subst h
      exact Bool.eq_false_iff.mpr hx

theorem dropWhile_eq_self_of_head (p : α → Bool) (l : List α)
    (h : ∀ a, l.head? = some a → p a = false) :
    List.dropWhile p l = l := by
  cases l with
  | nil => rfl
  | cons x xs =>
    rw [List.dropWhile_cons, if_neg]
    rw [h x rfl]
    simp

theorem getLast?_of_suffix {l₁ l₂ : List α} (h : l₁ <:+ l₂) (hne : l₁ ≠ []) :
    l₁.getLast? = l₂.getLast? := by
  obtain ⟨u, rfl⟩ := h
  rw [List.getLast?_append]
  cases hl : l₁.getLast? with
  | none => exact absurd (List.getLast?_eq_none_iff.mp hl) hne
  | some x => rfl

theorem stripList_idem (p : α → Bool) (l : List α) :
    (((((l.dropWhile p).reverse.dropWhile p).reverse).dropWhile p).reverse.dropWhile
        p).reverse =
      ((l.dropWhile p).reverse.dropWhile p).reverse := by
  have h1 :
      List.dropWhile p ((l.dropWhile p).reverse.dropWhile p).reverse =
        ((l.dropWhile p).reverse.dropWhile p).reverse := by
    apply dropWhile_eq_self_of_head
    intro x hx
    rw [List.head?_reverse] at hx
    have hb : (l.dropWhile p).reverse.dropWhile p ≠ [] := by
      intro hnil
      rw [hnil] at hx
      simp at hx
    rw [getLast?_of_suffix (List.dropWhile_suffix p) hb, List.getLast?_reverse] at hx
    exact head?_dropWhile_not p l x hx
  rw [h1, List.reverse_reverse, dropWhile_idem]

theorem pyStrip_idem (s : String) : pyStrip (pyStrip s) = pyStrip s :=
  congrArg String.mk (stripList_idem pyIsSpace s.data)

theorem pyIn_iff (needle hay : String) :
    pyIn needle hay = true ↔ needle.data <:+: hay.data :=
  decide_eq_true_iff

theorem pyLower_ne_empty {s : String} (h : s ≠ "") : pyLower s ≠ "" := by
  intro hc
  apply h
  have hd : s.data.map Char.toLower = [] := congrArg String.data hc
  rw [List.map_eq_nil_iff] at hd
  exact congrArg String.mk hd

theorem foldl_append_filterMap {β : Type} (g : String → Option β)
    (f : List β → String → List β)
    (hf : ∀ acc cid, f acc cid = acc ++ (g cid).toList) :
    ∀ (ids : List String) (acc : List β),
      ids.foldl f acc = acc ++ ids.filterMap g := by
  intro ids
  induction ids with
  | nil => intro acc; simp
  | cons cid rest ih =>
    intro acc
    rw [List.foldl_cons, ih, hf, List.filterMap_cons]
    cases g cid <;> simp

theorem relsLoop_eq_filterMap {β : Type} (g : String → Option β)
    (f : List β → String → List β)
    (hf : ∀ acc cid, f acc cid = acc ++ (g cid).toList) :
    ∀ (rels : List Relationship) (acc : List β),
      rels.foldl
        (fun acc rel =>
          if rel.type != "CHILD" then acc else rel.ids.foldl f acc) acc =
      acc ++
        (((rels.filter (fun rel => rel.type == "CHILD")).map
          (fun rel => rel.ids)).flatten).filterMap g := by
  intro rels
  induction rels with
  | nil => intro acc; simp
  | cons r rest ih =>
    intro acc
    rw [List.foldl_cons]
    by_cases hr : r.type == "CHILD"
    · have hcond : (r.type != "CHILD") = false := by
        simp only [bne, hr, Bool.not_true]
      rw [hcond]
      simp only [Bool.false_eq_true, if_false]
      rw [foldl_append_filterMap g f hf, ih]
      have hfil : List.filter (fun rel => rel.type == "CHILD") (r :: rest) =
          r :: List.filter (fun rel => rel.type == "CHILD") rest := by
        simp [List.filter_cons, hr]
      rw [hfil, List.map_cons, List.flatten_cons, List.filterMap_append,
        List.append_assoc]
    · have hb : (r.type == "CHILD") = false := Bool.eq_false_iff.mpr hr
      have hcond : (r.type != "CHILD") = true := by
        simp only [bne, hb, Bool.not_false]
      rw [hcond]
      simp only [if_true]
      have hfil : List.filter (fun rel => rel.type == "CHILD") (r :: rest) =
          List.filter (fun rel => rel.type == "CHILD") rest := by
        simp [List.filter_cons, hb]
      rw [ih, hfil]

theorem wordStep_spec (id_to_block : PyDict Block) :
    ∀ acc cid, wordStep id_to_block acc cid =
      acc ++ (childWordToken id_to_block cid).toList := by
  intro acc cid
  unfold wordStep childWordToken
  cases dictGet? id_to_block cid with
  | none => simp
  | some child =>
    rw [Option.some_bind]
    by_cases hw : child.blockType == "WORD"
    · have hweq : child.blockType = "WORD" := eq_of_beq hw
      by_cases ht : child.text.getD ("") ≠ ""
      · simp [hweq, ht]
      · simp [hweq, ht]
    · have hwne : child.blockType ≠ "WORD" := by simpa using hw
      simp [hwne]

theorem cellStep_spec (id_to_block : PyDict Block) :
    ∀ acc cid, cellStep id_to_block acc cid =
      acc ++ (childCell id_to_block cid).toList := by
  intro acc cid
  unfold cellStep childCell
  cases dictGet? id_to_block cid with
  | none => simp
  | some child =>
    rw [Option.some_bind]
    by_cases hc : child.blockType == "CELL"
    · have hceq : child.blockType = "CELL" := eq_of_beq hc
      simp [hceq]
    · have hcne : child.blockType ≠ "CELL" := by simpa using hc
      simp [hcne]

theorem extract_text_nonword (b : Block) (id_to_block : PyDict Block)
    (h : b.blockType ≠ "WORD") :
    extract_text_from_block b id_to_block =
      pyStrip (String.intercalate (" ")
        ((childIdsCHILD b).filterMap (childWordToken id_to_block))) := by
  unfold extract_text_from_block
  rw [if_neg (by simp [h])]
  rw [relsLoop_eq_filterMap (childWordToken id_to_block) (wordStep id_to_block)
    (wordStep_spec id_to_block) b.relationships []]
  rfl

theorem collectCells_eq_filterMap (table_block : Block)
    (id_to_block : PyDict Block) :
    collectCells table_block id_to_block =
      (childIdsCHILD table_block).filterMap (childCell id_to_block) := by
  unfold collectCells
  rw [relsLoop_eq_filterMap (childCell id_to_block) (cellStep id_to_block)
    (cellStep_spec id_to_block) table_block.relationships []]
  rfl

theorem pyIdx_of_nonneg {n : Nat} {i : Int} (h0 : 0 ≤ i) (h1 : i < (n : Int)) :
    pyIdx n i = some i.toNat := by
  unfold pyIdx
  rw [if_pos h0, if_pos h1]

theorem getD_set_eq (m : List (List String)) (rn : Nat) (row' : List String)
    (hrn : rn < m.length) :
    ∀ k, (m.set rn row').getD k [] = if rn = k then row' else m.getD k [] := by
  intro k
  rw [List.getD_eq_getElem?_getD, List.getElem?_set]
  by_cases hk : rn = k
  · rw [if_pos hk, if_pos hrn, if_pos hk]
    rfl
  · rw [if_neg hk, if_neg hk, List.getD_eq_getElem?_getD]

theorem getD_set_str (row : List String) (cn : Nat) (t : String)
    (hcn : cn < row.length) :
    ∀ j, (row.set cn t).getD j ("") = if cn = j then t else row.getD j ("") := by
  intro j
  rw [List.getD_eq_getElem?_getD, List.getElem?_set]
  by_cases hj : cn = j
  · rw [if_pos hj, if_pos hcn, if_pos hj]
    rfl
  · rw [if_neg hj, if_neg hj, List.getD_eq_getElem?_getD]

theorem writeCell_strong (id_to_block : PyDict Block)
    (m : List (List String)) (cell : Block) (h : cellIdxPos cell) :
    ∃ m', writeCell id_to_block m cell = some m' ∧
      m'.length = m.length ∧
      (∀ k, (m'.getD k []).length = (m.getD k []).length) ∧
      (∀ i j, entryAt m' i j = entryAt m i j ∨
        (cell.rowIndex = some ((i : Int) + 1) ∧
         cell.columnIndex = some ((j : Int) + 1) ∧
         entryAt m' i j = extract_text_from_block cell id_to_block ∧
         extract_text_from_block cell id_to_block ≠ "")) := by
  obtain ⟨⟨ri, hri, hri1⟩, ⟨ci, hci, hci1⟩⟩ := h
  have hgr : cell.rowIndex.getD 1 = ri := by rw [hri]; rfl
  have hgc : cell.columnIndex.getD 1 = ci := by rw [hci]; rfl
  unfold writeCell
  rw [hgr, hgc]
  by_cases hr : ri - 1 < (m.length : Int)
  · have hr0 : (0 : Int) ≤ ri - 1 := by omega
    rw [if_pos hr, pyIdx_of_nonneg hr0 hr, Option.some_bind]
    have hrnlt : (ri - 1).toNat < m.length := by omega
    by_cases hc : ci - 1 < (((m.getD (ri - 1).toNat []).length : Nat) : Int)
    · rw [if_pos hc]
      by_cases ht : extract_text_from_block cell id_to_block ≠ ""
      · rw [if_pos ht]
        have hc0 : (0 : Int) ≤ ci - 1 := by omega
        rw [pyIdx_of_nonneg hc0 hc, Option.some_bind]
        have hcnlt : (ci - 1).toNat < (m.getD (ri - 1).toNat []).length := by omega
        refine ⟨_, rfl, by rw [List.length_set], ?_, ?_⟩
        · intro k
          rw [getD_set_eq m _ _ hrnlt k]
          by_cases hk : (ri - 1).toNat = k
          · rw [if_pos hk, List.length_set, hk]
          · rw [if_neg hk]
        · intro i j
          unfold entryAt
          rw [getD_set_eq m _ _ hrnlt i]
          by_cases hik : (ri - 1).toNat = i
          · rw [if_pos hik]
            subst hik
            rw [getD_set_str _ _ _ hcnlt j]
            by_cases hjc : (ci - 1).toNat = j
            · rw [if_pos hjc]
              refine Or.inr ⟨?_, ?_, rfl, ht⟩
              · rw [hri]
                congr 1
                omega
              · rw [hci]
                congr 1
                omega
            · rw [if_neg hjc]
              exact Or.inl rfl
          · rw [if_neg hik]
            exact Or.inl rfl
      · rw [if_neg ht]
        exact ⟨m, rfl, rfl, fun k => rfl, fun i j => Or.inl rfl⟩
    · rw [if_neg hc]
      exact ⟨m, rfl, rfl, fun k => rfl, fun i j => Or.inl rfl⟩
  · rw [if_neg hr]
    exact ⟨m, rfl, rfl, fun k => rfl, fun i j => Or.inl rfl⟩

theorem writeCell_isSome (id_to_block : PyDict Block)
    (m : List (List String)) (cell : Block) (h : blockIdxOk cell) :
    ∃ m', writeCell id_to_block m cell = some m' := by
  have hr0 : (0 : Int) ≤ cell.rowIndex.getD 1 - 1 := by
    have := h.1
    omega
  have hc0 : (0 : Int) ≤ cell.columnIndex.getD 1 - 1 := by
    have := h.2
    omega
  unfold writeCell
  by_cases hr : cell.rowIndex.getD 1 - 1 < (m.length : Int)
  · rw [if_pos hr, pyIdx_of_nonneg hr0 hr, Option.some_bind]
    by_cases hc : cell.columnIndex.getD 1 - 1 <
        (((m.getD (cell.rowIndex.getD 1 - 1).toNat []).length : Nat) : Int)
    · rw [if_pos hc]
      by_cases ht : extract_text_from_block cell id_to_block ≠ ""
      · rw [if_pos ht, pyIdx_of_nonneg hc0 hc, Option.some_bind]
        exact ⟨_, rfl⟩
      · rw [if_neg ht]
        exact ⟨m, rfl⟩
    · rw [if_neg hc]
      exact ⟨m, rfl⟩
  · rw [if_neg hr]
    exact ⟨m, rfl⟩

theorem foldlM_writeCell_total (id_to_block : PyDict Block) :
    ∀ (cells : List Block) (m : List (List String)),
      (∀ c ∈ cells, blockIdxOk c) →
      ∃ m', cells.foldlM (writeCell id_to_block) m = some m' := by
  intro cells
  induction cells with
  | nil => intro m _; exact ⟨m, rfl⟩
  | cons cell rest ih =>
    intro m h
    obtain ⟨m1, hm1⟩ :=
      writeCell_isSome id_to_block m cell (h cell (List.mem_cons_self cell rest))
    obtain ⟨m', hm'⟩ := ih m1 (fun c hc => h c (List.mem_cons_of_mem cell hc))
    refine ⟨m', ?_⟩
    rw [List.foldlM_cons, hm1]
    exact hm'

theorem foldlM_writeCell_invariant (id_to_block : PyDict Block) :
    ∀ (cells : List Block) (m : List (List String)),
      (∀ c ∈ cells, cellIdxPos c) →
      ∃ m', cells.foldlM (writeCell id_to_block) m = some m' ∧
        m'.length = m.length ∧
        (∀ k, (m'.getD k []).length = (m.getD k []).length) ∧
        (∀ i j, entryAt m' i j = entryAt m i j ∨
          ∃ cell ∈ cells, cell.rowIndex = some ((i : Int) + 1) ∧
            cell.columnIndex = some ((j : Int) + 1) ∧
            entryAt m' i j = extract_text_from_block cell id_to_block ∧
            extract_text_from_block cell id_to_block ≠ "") := by
  intro cells
  induction cells with
  | nil =>
    intro m _
    exact ⟨m, rfl, rfl, fun k => rfl, fun i j => Or.inl rfl⟩
  | cons cell rest ih =>
    intro m h
    obtain ⟨m1, hm1, hlen1, hrow1, hent1⟩ :=
      writeCell_strong id_to_block m cell (h cell (List.mem_cons_self cell rest))
    obtain ⟨m', hm', hlen', hrow', hent'⟩ :=
      ih m1 (fun c hc => h c (List.mem_cons_of_mem cell hc))
    refine ⟨m', ?_, by rw [hlen', hlen1], fun k => by rw [hrow' k, hrow1 k], ?_⟩
    · rw [List.foldlM_cons, hm1]
      exact hm'
    · intro i j
      rcases hent' i j with h2 | ⟨c, hc, hcr, hcc, hcv, hcn⟩
      · rw [h2]
        rcases hent1 i j with h1 | ⟨hcr, hcc, hcv, hcn⟩
        · exact Or.inl h1
        · exact Or.inr ⟨cell, List.mem_cons_self cell rest, hcr, hcc, hcv, hcn⟩
      · exact Or.inr ⟨c, List.mem_cons_of_mem cell hc, hcr, hcc, hcv, hcn⟩

/-! ### The maximum-index folds of the matrix builder -/

theorem foldl_max_le (f : Block → Int) (R : Int) :
    ∀ (l : List Block) (a : Int), a ≤ R → (∀ c ∈ l, f c ≤ R) →
      l.foldl (fun m c => max m (f c)) a ≤ R := by
  intro l
  induction l with
  | nil => intro a ha _; exact ha
  | cons x xs ih =>
    intro a ha h
    rw [List.foldl_cons]
    exact ih (max a (f x))
      (max_le ha (h x (List.mem_cons_self x xs)))
      (fun c hc => h c (List.mem_cons_of_mem x hc))

theorem foldl_max_ge_init (f : Block → Int) :
    ∀ (l : List Block) (a : Int), a ≤ l.foldl (fun m c => max m (f c)) a := by
  intro l
  induction l with
  | nil => intro a; exact le_refl a
  | cons x xs ih =>
    intro a
    rw [List.foldl_cons]
    exact le_trans (le_max_left a (f x)) (ih (max a (f x)))

theorem foldl_max_ge_mem (f : Block → Int) :
    ∀ (l : List Block) (a : Int) (c : Block), c ∈ l →
      f c ≤ l.foldl (fun m c => max m (f c)) a := by
  intro l
  induction l with
  | nil => intro a c hc; exact absurd hc (List.not_mem_nil c)
  | cons x xs ih =>
    intro a c hc
    rw [List.foldl_cons]
    rcases List.mem_cons.mp hc with rfl | hmem
    · exact le_trans (le_max_right a (f c)) (foldl_max_ge_init f xs (max a (f c)))
    · exact ih (max a (f x)) c hmem

theorem foldl_max_eq (f : Block → Int) (l : List Block) (R : Int)
    (h0 : 0 ≤ R) (hub : ∀ c ∈ l, f c ≤ R) (hat : ∃ c ∈ l, f c = R) :
    l.foldl (fun m c => max m (f c)) 0 = R := by
  obtain ⟨c, hc, hfc⟩ := hat
  exact le_antisymm (foldl_max_le f R l 0 h0 hub)
    (hfc ▸ foldl_max_ge_mem f l 0 c hc)

/-- Unfolding of `build_table_matrix` through its local bindings. -/
theorem build_table_matrix_eq (table_block : Block) (id_to_block : PyDict Block) :
    build_table_matrix table_block id_to_block =
      (collectCells table_block id_to_block).foldlM (writeCell id_to_block)
        (List.replicate
          ((collectCells table_block id_to_block).foldl
            (fun (m : Int) (cell : Block) => max m (cell.rowIndex.getD 0)) 0).toNat
          (List.replicate
            ((collectCells table_block id_to_block).foldl
              (fun (m : Int) (cell : Block) => max m (cell.columnIndex.getD 0))
              0).toNat (""))) :=
  rfl

theorem getD_replicate' {α : Type} (n : Nat) (x : α) (i : Nat) (d : α) :
    (List.replicate n x).getD i d = if i < n then x else d := by
  rw [List.getD_eq_getElem?_getD, List.getElem?_replicate]
  by_cases h : i < n
  · rw [if_pos h, if_pos h]
    rfl
  · rw [if_neg h, if_neg h]
    rfl

theorem entryAt_replicate (R C : Nat) (i j : Nat) :
    entryAt (List.replicate R (List.replicate C (""))) i j = "" := by
  unfold entryAt
  rw [getD_replicate']
  by_cases hi : i < R
  · rw [if_pos hi, getD_replicate']
    by_cases hj : j < C
    · rw [if_pos hj]
    · rw [if_neg hj]
  · rw [if_neg hi]
    rfl

theorem mem_collectCells_blockType {table_block : Block} {id_to_block : PyDict Block}
    {c : Block} (h : c ∈ collectCells table_block id_to_block) :
    c.blockType = "CELL" := by
  rw [collectCells_eq_filterMap] at h
  obtain ⟨a, _, ha⟩ := List.mem_filterMap.mp h
  unfold childCell at ha
  cases hg : dictGet? id_to_block a with
  | none => rw [hg] at ha; exact absurd ha (by simp)
  | some child =>
    rw [hg, Option.some_bind] at ha
    by_cases hc : child.blockType == "CELL"
    · rw [if_pos hc] at ha
      obtain rfl := Option.some.inj ha
      exact eq_of_beq hc
    · rw [if_neg hc] at ha
      exact absurd ha (by simp)

theorem extract_text_strip_idem (b : Block) (id_to_block : PyDict Block)
    (h : b.blockType ≠ "WORD") :
    pyStrip (extract_text_from_block b id_to_block) =
      extract_text_from_block b id_to_block := by
  rw [extract_text_nonword b id_to_block h]
  exact pyStrip_idem _

theorem rowFold_eq (cells : List Block) (R : Nat)
    (hub : ∀ c ∈ cells, c.rowIndex.getD 0 ≤ (R : Int))
    (hat : ∃ c ∈ cells, c.rowIndex = some (R : Int)) :
    cells.foldl (fun (m : Int) (cell : Block) => max m (cell.rowIndex.getD 0)) 0 =
      (R : Int) := by
  refine foldl_max_eq (fun c => c.rowIndex.getD 0) cells (R : Int)
    (Int.natCast_nonneg R) hub ?_
  obtain ⟨c, hc, hcr⟩ := hat
  refine ⟨c, hc, ?_⟩
  show c.rowIndex.getD 0 = (R : Int)
  rw [hcr]
  rfl

theorem colFold_eq (cells : List Block) (C : Nat)
    (hub : ∀ c ∈ cells, c.columnIndex.getD 0 ≤ (C : Int))
    (hat : ∃ c ∈ cells, c.columnIndex = some (C : Int)) :
    cells.foldl (fun (m : Int) (cell : Block) => max m (cell.columnIndex.getD 0)) 0 =
      (C : Int) := by
  refine foldl_max_eq (fun c => c.columnIndex.getD 0) cells (C : Int)
    (Int.natCast_nonneg C) hub ?_
  obtain ⟨c, hc, hcr⟩ := hat
  refine ⟨c, hc, ?_⟩
  show c.columnIndex.getD 0 = (C : Int)
  rw [hcr]
  rfl

theorem cellInBounds_pos {R C : Nat} {cell : Block} (h : cellInBounds R C cell) :
    cellIdxPos cell := by
  obtain ⟨h1, h2, h3, h4, h5, h6⟩ := h
  constructor
  · cases hx : cell.rowIndex with
    | none => exact absurd hx h1
    | some ri =>
      rw [hx, Option.getD_some] at h3
      exact ⟨ri, rfl, h3⟩
  · cases hx : cell.columnIndex with
    | none => exact absurd hx h2
    | some ci =>
      rw [hx, Option.getD_some] at h5
      exact ⟨ci, rfl, h5⟩

/-- Full specification of `build_table_matrix` for a table whose collected
cells all carry 1-based indices bounded by the attained maxima `R`, `C`: the
build succeeds, the grid is exactly `R` by `C`, and every non-empty entry is
the non-empty text of a collected cell sitting at exactly that 0-based
position. -/
theorem build_matrix_spec (table_block : Block) (id_to_block : PyDict Block)
    (R C : Nat)
    (hwf : ∀ cell ∈ collectCells table_block id_to_block, cellInBounds R C cell)
    (hRat : ∃ cell ∈ collectCells table_block id_to_block,
      cell.rowIndex = some (R : Int))
    (hCat : ∃ cell ∈ collectCells table_block id_to_block,
      cell.columnIndex = some (C : Int)) :
    ∃ m, build_table_matrix table_block id_to_block = some m ∧
      m.length = R ∧
      (∀ row ∈ m, row.length = C) ∧
      (∀ i j, entryAt m i j = "" ∨
        ∃ cell ∈ collectCells table_block id_to_block,
          cell.rowIndex = some ((i : Int) + 1) ∧
          cell.columnIndex = some ((j : Int) + 1) ∧
          entryAt m i j = extract_text_from_block cell id_to_block ∧
          entryAt m i j ≠ "") := by
  have hcells : ∀ cell ∈ collectCells table_block id_to_block, cellIdxPos cell :=
    fun c hc => cellInBounds_pos (hwf c hc)
  have hrow : (collectCells table_block id_to_block).foldl
      (fun (m : Int) (cell : Block) => max m (cell.rowIndex.getD 0)) 0 = (R : Int) :=
    rowFold_eq _ R (fun c hc => (hwf c hc).2.2.2.1) hRat
  have hcol : (collectCells table_block id_to_block).foldl
      (fun (m : Int) (cell : Block) => max m (cell.columnIndex.getD 0)) 0 = (C : Int) :=
    colFold_eq _ C (fun c hc => (hwf c hc).2.2.2.2.2) hCat
  obtain ⟨m', hm', hlen', hrowlen', hent'⟩ :=
    foldlM_writeCell_invariant id_to_block (collectCells table_block id_to_block)
      (List.replicate R (List.replicate C (""))) hcells
  refine ⟨m', ?_, ?_, ?_, ?_⟩
  · rw [build_table_matrix_eq, hrow, hcol, Int.toNat_natCast, Int.toNat_natCast]
    exact hm'
  · rw [hlen', List.length_replicate]
  · intro row hrowmem
    obtain ⟨i, hi, hgeti⟩ := List.mem_iff_getElem.mp hrowmem
    have hgd : m'.getD i [] = row := by
      rw [List.getD_eq_getElem?_getD, List.getElem?_eq_getElem hi, hgeti]
      rfl
    have hiR : i < R := by
      have := hlen'
      rw [List.length_replicate] at this
      omega
    have := hrowlen' i
    rw [hgd, getD_replicate', if_pos hiR, List.length_replicate] at this
    exact this
  · intro i j
    rcases hent' i j with h0 | ⟨cell, hc, hcr, hcc, hcv, hcn⟩
    · rw [entryAt_replicate] at h0
      exact Or.inl h0
    · exact Or.inr ⟨cell, hc, hcr, hcc, hcv, by rw [hcv]; exact hcn⟩

/-- A table with no collected cells builds the empty matrix. -/
theorem build_matrix_nil (table_block : Block) (id_to_block : PyDict Block)
    (h : collectCells table_block id_to_block = []) :
    build_table_matrix table_block id_to_block = some [] := by
  rw [build_table_matrix_eq, h]
  rfl

/-! ### Dictionary and index lemmas -/

theorem dictGet?_mem {α : Type} (m : PyDict α) (k : String) (b : α)
    (h : dictGet? m k = some b) : ∃ p ∈ m, p.2 = b := by
  unfold dictGet? at h
  cases hf : m.find? (fun p => p.1 == k) with
  | none => rw [hf] at h; exact absurd h (by simp)
  | some p =>
    rw [hf] at h
    simp only [Option.map_some', Option.some.injEq] at h
    exact ⟨p, List.mem_of_find?_eq_some hf, h⟩

theorem mem_dictInsert {α : Type} (m : PyDict α) (k : String) (v : α)
    (p : String × α) (h : p ∈ dictInsert m k v) : p = (k, v) ∨ p ∈ m := by
  unfold dictInsert at h
  by_cases hany : m.any (fun q => q.1 == k)
  · rw [if_pos hany] at h
    obtain ⟨q, hq, hfq⟩ := List.mem_map.mp h
    by_cases hqk : q.1 == k
    · rw [if_pos hqk] at hfq
      exact Or.inl hfq.symm
    · rw [if_neg hqk] at hfq
      exact Or.inr (hfq ▸ hq)
  · rw [if_neg hany] at h
    rcases List.mem_append.mp h with hm | hone
    · exact Or.inr hm
    · exact Or.inl (List.mem_singleton.mp hone)

theorem indexFold_entries (S : List Block) :
    ∀ (bs : List Block) (acc : PyDict Block × PyDict (List String)),
      (∀ b ∈ bs, b ∈ S) →
      (∀ p ∈ acc.1, p.2 ∈ S) →
      ∀ p ∈ (bs.foldl indexStep acc).1, p.2 ∈ S := by
  intro bs
  induction bs with
  | nil => intro acc _ hacc; exact hacc
  | cons b rest ih =>
    intro acc hbs hacc
    rw [List.foldl_cons]
    refine ih (indexStep acc b) (fun x hx => hbs x (List.mem_cons_of_mem b hx)) ?_
    intro p hp
    rcases mem_dictInsert acc.1 b.id b p hp with rfl | hm
    · exact hbs b (List.mem_cons_self b rest)
    · exact hacc p hm

theorem build_index_values (blocks : List Block) (k : String) (b : Block)
    (h : dictGet? (build_block_index blocks).1 k = some b) : b ∈ blocks := by
  obtain ⟨p, hp, hpb⟩ := dictGet?_mem _ k b h
  have := indexFold_entries blocks blocks ([], [])
    (fun x hx => hx) (by intro p hp; exact absurd hp (List.not_mem_nil p)) p hp
  exact hpb ▸ this

theorem collectCells_sub (blocks : List Block) (table_block : Block)
    (c : Block) (h : c ∈ collectCells table_block (build_block_index blocks).1) :
    c ∈ blocks := by
  rw [collectCells_eq_filterMap] at h
  obtain ⟨a, _, ha⟩ := List.mem_filterMap.mp h
  unfold childCell at ha
  cases hg : dictGet? (build_block_index blocks).1 a with
  | none => rw [hg] at ha; exact absurd ha (by simp)
  | some child =>
    rw [hg, Option.some_bind] at ha
    by_cases hc : child.blockType == "CELL"
    · rw [if_pos hc] at ha
      obtain rfl := Option.some.inj ha
      exact build_index_values blocks a child hg
    · rw [if_neg hc] at ha
      exact absurd ha (by simp)

/-! ### Orchestrator lemmas -/

theorem resolveFromMatrix_value_ne (target_page : Int)
    (matrix : List (List String)) (target_year : Option String)
    (v d : String) (h : resolveFromMatrix target_page matrix target_year = some (v, d)) :
    v ≠ "" := by
  unfold resolveFromMatrix at h
  by_cases hg : matrix.isEmpty || (matrix.headD []).isEmpty
  · rw [if_pos hg] at h
    exact absurd h (by simp)
  · rw [if_neg hg] at h
    cases hcol : resolveColumn matrix target_year with
    | none => rw [hcol] at h; exact absurd h (by simp)
    | some year_col_idx =>
      cases hrow : find_row_index_by_label matrix ("Revenue") with
      | none => rw [hcol, hrow] at h; exact absurd h (by simp)
      | some revenue_row_idx =>
        rw [hcol, hrow] at h
        simp only at h
        by_cases hb : year_col_idx < (matrix.getD revenue_row_idx []).length
        · rw [if_pos hb] at h
          by_cases hv :
              pyStrip ((matrix.getD revenue_row_idx []).getD year_col_idx ("")) ≠ ""
          · rw [if_pos hv] at h
            obtain ⟨rfl, -⟩ := Prod.mk.inj (Option.some.inj h)
            exact hv
          · rw [if_neg hv] at h
            exact absurd h (by simp)
        · rw [if_neg hb] at h
          exact absurd h (by simp)

theorem tryTable_isSome (blocks : List Block)
    (hwf : ∀ b ∈ blocks, blockIdxOk b) (target_page : Int)
    (target_year : Option String) (table_block : Block) :
    ∃ r, tryTable (build_block_index blocks).1 target_page target_year table_block =
      some r := by
  obtain ⟨m, hm⟩ := foldlM_writeCell_total (build_block_index blocks).1
    (collectCells table_block (build_block_index blocks).1) _
    (fun c hc => hwf c (collectCells_sub blocks table_block c hc))
  refine ⟨resolveFromMatrix target_page m target_year, ?_⟩
  unfold tryTable
  rw [build_table_matrix_eq, hm]
  rfl

theorem tryTable_success_ne (id_to_block : PyDict Block) (target_page : Int)
    (target_year : Option String) (table_block : Block) (res : String × String)
    (h : tryTable id_to_block target_page target_year table_block = some (some res)) :
    res.1 ≠ "" := by
  unfold tryTable at h
  cases hb : build_table_matrix table_block id_to_block with
  | none => rw [hb] at h; exact absurd h (by simp)
  | some m =>
    rw [hb] at h
    simp only [Option.map_some', Option.some.injEq] at h
    exact resolveFromMatrix_value_ne target_page m target_year res.1 res.2
      (by rw [h])

theorem tryTables_spec (id_to_block : PyDict Block) (target_page : Int)
    (target_year : Option String) :
    ∀ tables : List Block,
      (∀ tbl ∈ tables, ∃ r,
        tryTable id_to_block target_page target_year tbl = some r) →
      (tryTables id_to_block target_page target_year tables = some none ∧
        ∀ tbl ∈ tables,
          tryTable id_to_block target_page target_year tbl = some none) ∨
      (∃ v d, tryTables id_to_block target_page target_year tables =
        some (some (v, d)) ∧ v ≠ "") := by
  intro tables
  induction tables with
  | nil =>
    intro _
    exact Or.inl ⟨rfl, by intro tbl htbl; exact absurd htbl (List.not_mem_nil tbl)⟩
  | cons t rest ih =>
    intro hsome
    obtain ⟨r, hr⟩ := hsome t (List.mem_cons_self t rest)
    cases r with
    | none =>
      rcases ih (fun tbl htbl => hsome tbl (List.mem_cons_of_mem t htbl)) with
        ⟨hrest, hall⟩ | ⟨v, d, hrest, hv⟩
      · refine Or.inl ⟨?_, ?_⟩
        · unfold tryTables
          rw [hr]
          exact hrest
        · intro tbl htbl
          rcases List.mem_cons.mp htbl with rfl | hmem
          · exact hr
          · exact hall tbl hmem
      · refine Or.inr ⟨v, d, ?_, hv⟩
        unfold tryTables
        rw [hr]
        exact hrest
    | some res =>
      refine Or.inr ⟨res.1, res.2, ?_, tryTable_success_ne _ _ _ _ _ hr⟩
      unfold tryTables
      rw [hr]

/-! ### Sorting lemmas for the page scan -/

theorem mem_insertSorted (x : Int) :
    ∀ (l : List Int) (y : Int), y ∈ insertSorted x l ↔ y = x ∨ y ∈ l := by
  intro l
  induction l with
  | nil => intro y; simp [insertSorted]
  | cons z zs ih =>
    intro y
    unfold insertSorted
    by_cases hxz : x ≤ z
    · rw [if_pos hxz]
      simp [List.mem_cons]
    · rw [if_neg hxz]
      simp [List.mem_cons, ih y]
      tauto

theorem sorted_insertSorted (x : Int) :
    ∀ l : List Int, l.Sorted (· ≤ ·) → (insertSorted x l).Sorted (· ≤ ·) := by
  intro l
  induction l with
  | nil => intro _; simp [insertSorted]
  | cons z zs ih =>
    intro h
    rw [List.sorted_cons] at h
    unfold insertSorted
    by_cases hxz : x ≤ z
    · rw [if_pos hxz, List.sorted_cons]
      refine ⟨?_, by rw [List.sorted_cons]; exact h⟩
      intro b hb
      rcases List.mem_cons.mp hb with rfl | hbm
      · exact hxz
      · exact le_trans hxz (h.1 b hbm)
    · rw [if_neg hxz, List.sorted_cons]
      refine ⟨?_, ih h.2⟩
      intro b hb
      rcases (mem_insertSorted x zs b).mp hb with rfl | hbm
      · omega
      · exact h.1 b hbm

theorem sorted_pySorted : ∀ l : List Int, (pySorted l).Sorted (· ≤ ·) := by
  intro l
  induction l with
  | nil => simp [pySorted]
  | cons a l ih => exact sorted_insertSorted a (pySorted l) ih

theorem mem_pySorted : ∀ (l : List Int) (y : Int), y ∈ pySorted l ↔ y ∈ l := by
  intro l
  induction l with
  | nil => intro y; exact Iff.rfl
  | cons a l ih =>
    intro y
    show y ∈ insertSorted a (pySorted l) ↔ _
    rw [mem_insertSorted]
    simp [List.mem_cons, ih y]

theorem find?_sorted_min (P : Int → Bool) :
    ∀ l : List Int, l.Sorted (· ≤ ·) → ∀ x, l.find? P = some x →
      ∀ y ∈ l, P y = true → x ≤ y := by
  intro l
  induction l with
  | nil => intro _ x hf; exact absurd hf (by simp)
  | cons a l ih =>
    intro h x hf y hy hPy
    rw [List.sorted_cons] at h
    rw [List.find?_cons] at hf
    cases hpa : P a with
    | true =>
      rw [hpa] at hf
      obtain rfl := Option.some.inj hf
      rcases List.mem_cons.mp hy with rfl | hym
      · exact le_refl _
      · exact h.1 y hym
    | false =>
      rw [hpa] at hf
      rcases List.mem_cons.mp hy with rfl | hym
      · rw [hPy] at hpa; exact absurd hpa (by simp)
      · exact ih h.2 x hf y hym hPy

theorem mem_pages_iff (blocks : List Block) (p : Int) :
    p ∈ (pagesOf blocks).dedup ↔ ∃ b ∈ blocks, b.page = some p := by
  rw [List.mem_dedup]
  unfold pagesOf
  rw [List.mem_filterMap]

theorem findTargetPage_min (blocks : List Block) (id_to_block : PyDict Block)
    (phrase : String) (p : Int)
    (h : findTargetPage blocks id_to_block phrase = some p) :
    (∃ b ∈ blocks, b.page = some p) ∧
    page_contains_phrase blocks id_to_block p phrase = true ∧
    (∀ q : Int, (∃ b ∈ blocks, b.page = some q) →
      page_contains_phrase blocks id_to_block q phrase = true → p ≤ q) := by
  unfold findTargetPage at h
  refine ⟨?_, by simpa using List.find?_some h, ?_⟩
  · rw [← mem_pages_iff, ← mem_pySorted]
    exact List.mem_of_find?_eq_some h
  · intro q hq hcq
    refine find?_sorted_min _ _ (sorted_pySorted _) p h q ?_ hcq
    rw [mem_pySorted, mem_pages_iff]
    exact hq

theorem findTargetPage_none (blocks : List Block) (id_to_block : PyDict Block)
    (phrase : String)
    (h : findTargetPage blocks id_to_block phrase = none) :
    ∀ q : Int, (∃ b ∈ blocks, b.page = some q) →
      page_contains_phrase blocks id_to_block q phrase = false := by
  unfold findTargetPage at h
  intro q hq
  have := List.find?_eq_none.mp h q (by rw [mem_pySorted, mem_pages_iff]; exact hq)
  exact Bool.eq_false_iff.mpr this

theorem idxPos_of_getD {b : Block} (h1 : 1 ≤ b.rowIndex.getD 0)
    (h2 : 1 ≤ b.columnIndex.getD 0) : cellIdxPos b := by
  constructor
  · cases hx : b.rowIndex with
    | none => rw [hx] at h1; exact absurd h1 (by decide)
    | some ri =>
      rw [hx, Option.getD_some] at h1
      exact ⟨ri, rfl, h1⟩
  · cases hx : b.columnIndex with
    | none => rw [hx] at h2; exact absurd h2 (by decide)
    | some ci =>
      rw [hx, Option.getD_some] at h2
      exact ⟨ci, rfl, h2⟩

/-! ## Claim theorems -/

/-- C1: on the single-page scenario document (phrase line plus a table whose
cells reconstruct header row `["", "2023", "2024"]` and data row
`["Revenue", "100", "120"]`), the extraction core returns `"120"` with
diagnostic `page=1, table_extracted_rows=2 cols=3` for target year `"2024"`,
returns `"100"` (second-column fallback) when no target year is supplied,
and reports `Revenue not found in tables on target page` when the data-row
label is `"Sales"` instead. -/
theorem C1_end_to_end_scenario :
    analyze_pdf_and_extract (scenarioBlocks ("Revenue")) (some ("2024")) =
      some (some ("120"), "page=1, table_extracted_rows=2 cols=3") ∧
    analyze_pdf_and_extract (scenarioBlocks ("Revenue")) none =
      some (some ("100"), "page=1, table_extracted_rows=2 cols=3") ∧
    analyze_pdf_and_extract (scenarioBlocks ("Sales")) (some ("2024")) =
      some (none, "Revenue not found in tables on target page") :=
  ⟨by decide, by decide, by decide⟩

/-- C2: for a table whose collected `CELL` children all carry 1-based
`RowIndex` / `ColumnIndex` with attained maxima `R` and `C`, the built
matrix has exactly `R` rows of exactly `C` columns each, and every position
holds either the empty string or the non-empty trimmed reconstructed text of
some cell; a table with zero `CELL` children yields a matrix with zero
rows. -/
theorem C2_matrix_shape :
    (∀ (table_block : Block) (id_to_block : PyDict Block) (R C : Nat),
      (∀ cell ∈ collectCells table_block id_to_block, cellInBounds R C cell) →
      (∃ cell ∈ collectCells table_block id_to_block,
        cell.rowIndex = some (R : Int)) →
      (∃ cell ∈ collectCells table_block id_to_block,
        cell.columnIndex = some (C : Int)) →
      ∃ m, build_table_matrix table_block id_to_block = some m ∧
        m.length = R ∧
        (∀ row ∈ m, row.length = C) ∧
        (∀ i j, entryAt m i j = "" ∨
          ∃ cell ∈ collectCells table_block id_to_block,
            entryAt m i j = extract_text_from_block cell id_to_block ∧
            entryAt m i j ≠ "" ∧
            pyStrip (entryAt m i j) = entryAt m i j)) ∧
    (∀ (table_block : Block) (id_to_block : PyDict Block),
      collectCells table_block id_to_block = [] →
      build_table_matrix table_block id_to_block = some []) := by
  constructor
  · intro table_block id_to_block R C hwf hRat hCat
    obtain ⟨m, hm, hlen, hrows, hent⟩ :=
      build_matrix_spec table_block id_to_block R C hwf hRat hCat
    refine ⟨m, hm, hlen, hrows, ?_⟩
    intro i j
    rcases hent i j with h0 | ⟨cell, hc, _, _, hv, hn⟩
    · exact Or.inl h0
    · refine Or.inr ⟨cell, hc, hv, hn, ?_⟩
      rw [hv]
      exact extract_text_strip_idem cell id_to_block
        (by rw [mem_collectCells_blockType hc]; decide)
  · intro table_block id_to_block h
    exact build_matrix_nil table_block id_to_block h

/-- Witness for C2 at the scenario table: the 2x3 grid is built. -/
theorem C2_matrix_shape_witness :
    (build_table_matrix scenarioTable
      (build_block_index (scenarioBlocks ("Revenue"))).1).isSome = true := by
  obtain ⟨m, hm, -, -, -⟩ :=
    C2_matrix_shape.1 scenarioTable
      (build_block_index (scenarioBlocks ("Revenue"))).1 2 3
      (by decide) (by decide) (by decide)
  rw [hm]
  rfl

/-- C7 as frozen is false: a cell whose indices place it outside the
allocated grid is not always skipped.  `cexCellB` claims `RowIndex = 0`,
`ColumnIndex = 1`; its 0-based position `(-1, 0)` is outside the 1x1 grid,
yet Python negative indexing writes its text over position `(0, 0)`,
clobbering the text of `cexCellA`: with the malformed cell present the
build yields `[["B"]]`, without it `[["A"]]`. -/
theorem C7_counterexample :
    build_table_matrix cexTable cexDict = some [["B"]] ∧
    build_table_matrix cexTableNoB cexDict = some [["A"]] ∧
    (([["B"]] : List (List String)) ≠ [["A"]]) :=
  ⟨by decide, by decide, by decide⟩

/-- C7 amended: for a table all of whose collected cells carry indices that
are present and at least 1, the build raises no error, every non-empty grid
entry sits at exactly its cell's 0-based `(RowIndex - 1, ColumnIndex - 1)`
position (no write lands anywhere else), and `CHILD` relationship targets
absent from the index are skipped silently (appending a relationship of
dangling ids leaves the build unchanged). -/
theorem C7_amended_malformed_defense :
    (∀ (table_block : Block) (id_to_block : PyDict Block),
      (∀ cell ∈ collectCells table_block id_to_block,
        1 ≤ cell.rowIndex.getD 0 ∧ 1 ≤ cell.columnIndex.getD 0) →
      ∃ m, build_table_matrix table_block id_to_block = some m ∧
        (∀ i j, entryAt m i j ≠ "" →
          ∃ cell ∈ collectCells table_block id_to_block,
            cell.rowIndex = some ((i : Int) + 1) ∧
            cell.columnIndex = some ((j : Int) + 1) ∧
            entryAt m i j = extract_text_from_block cell id_to_block)) ∧
    (∀ (table_block : Block) (id_to_block : PyDict Block) (ids : List String),
      (∀ i ∈ ids, dictGet? id_to_block i = none) →
      build_table_matrix
        { table_block with relationships :=
            table_block.relationships ++ [{ type := "CHILD", ids := ids }] }
        id_to_block =
      build_table_matrix table_block id_to_block) := by
  constructor
  · intro table_block id_to_block hwf
    obtain ⟨m, hm, -, -, hent⟩ :=
      foldlM_writeCell_invariant id_to_block
        (collectCells table_block id_to_block)
        (List.replicate
          ((collectCells table_block id_to_block).foldl
            (fun (m : Int) (cell : Block) => max m (cell.rowIndex.getD 0)) 0).toNat
          (List.replicate
            ((collectCells table_block id_to_block).foldl
              (fun (m : Int) (cell : Block) => max m (cell.columnIndex.getD 0))
              0).toNat ("")))
        (fun c hc => idxPos_of_getD (hwf c hc).1 (hwf c hc).2)
    refine ⟨m, ?_, ?_⟩
    · rw [build_table_matrix_eq]
      exact hm
    · intro i j hne
      rcases hent i j with h0 | ⟨cell, hc, hcr, hcc, hcv, -⟩
      · rw [entryAt_replicate] at h0
        exact absurd h0 hne
      · exact ⟨cell, hc, hcr, hcc, hcv⟩
  · intro table_block id_to_block ids hids
    have hcc : collectCells
        { table_block with relationships :=
            table_block.relationships ++ [{ type := "CHILD", ids := ids }] }
        id_to_block = collectCells table_block id_to_block := by
      rw [collectCells_eq_filterMap, collectCells_eq_filterMap]
      have hch : childIdsCHILD
          { table_block with relationships :=
              table_block.relationships ++ [{ type := "CHILD", ids := ids }] } =
          childIdsCHILD table_block ++ ids := by
        unfold childIdsCHILD
        simp [List.filter_append]
      rw [hch, List.filterMap_append]
      have hnil : ids.filterMap (childCell id_to_block) = [] := by
        rw [List.filterMap_eq_nil_iff]
        intro i hi
        unfold childCell
        rw [hids i hi]
        rfl
      rw [hnil, List.append_nil]
    rw [build_table_matrix_eq, build_table_matrix_eq, hcc]

/-- Witness for the amended C7 at the scenario table. -/
theorem C7_amended_witness :
    (build_table_matrix scenarioTable
      (build_block_index (scenarioBlocks ("Revenue"))).1).isSome = true := by
  obtain ⟨m, hm, -⟩ :=
    C7_amended_malformed_defense.1 scenarioTable
      (build_block_index (scenarioBlocks ("Revenue"))).1 (by decide)
  rw [hm]
  rfl

/-- Unfolding of `analyze_pdf_and_extract` through its local bindings. -/
theorem analyze_eq (blocks : List Block) (target_year : Option String) :
    analyze_pdf_and_extract blocks target_year =
      if blocks.isEmpty then some (none, "No blocks returned")
      else
        match findTargetPage blocks (build_block_index blocks).1 targetPhrase with
        | none =>
          some (none,
            "Could not find page containing \x27STATEMENT OF PROFIT OR LOSS\x27")
        | some target_page =>
          if (get_tables_on_page blocks target_page).isEmpty then
            some (none, "No tables found on target page")
          else
            match tryTables (build_block_index blocks).1 target_page target_year
                (get_tables_on_page blocks target_page) with
            | none => none
            | some (some (value, dbg)) => some (some value, dbg)
            | some none =>
              some (none, "Revenue not found in tables on target page") :=
  rfl

/-- C3 amended: on any element collection whose explicit cell indices are at
least 1 (the data model's 1-based indices; the unamended claim fails on
collections with negative indices, see the counterexample), the extraction
core returns exactly one of two shapes: a non-empty value with a diagnostic,
or an absence whose reason names the failing stage — `No blocks returned`
for the empty collection, the page-not-found message when no page matches
the phrase, the no-tables message when the located page has no `TABLE`
element, and the not-found message when every table on the page fails
resolution. -/
theorem C3_result_taxonomy (blocks : List Block) (target_year : Option String)
    (hwf : ∀ b ∈ blocks, blockIdxOk b) :
    ∃ r, analyze_pdf_and_extract blocks target_year = some r ∧
      ((∃ v d, r = (some v, d) ∧ v ≠ "") ∨
       (blocks = [] ∧ r = (none, "No blocks returned")) ∨
       (blocks ≠ [] ∧
         findTargetPage blocks (build_block_index blocks).1 targetPhrase = none ∧
         r = (none,
           "Could not find page containing \x27STATEMENT OF PROFIT OR LOSS\x27")) ∨
       (∃ tp, findTargetPage blocks (build_block_index blocks).1 targetPhrase =
           some tp ∧
         get_tables_on_page blocks tp = [] ∧
         r = (none, "No tables found on target page")) ∨
       (∃ tp, findTargetPage blocks (build_block_index blocks).1 targetPhrase =
           some tp ∧
         get_tables_on_page blocks tp ≠ [] ∧
         (∀ tbl ∈ get_tables_on_page blocks tp,
           tryTable (build_block_index blocks).1 tp target_year tbl = some none) ∧
         r = (none, "Revenue not found in tables on target page"))) := by
  by_cases hempty : blocks.isEmpty
  · refine ⟨(none, "No blocks returned"), ?_,
      Or.inr (Or.inl ⟨List.isEmpty_iff.mp hempty, rfl⟩)⟩
    simp [analyze_eq, hempty]
  · have hemptyf : blocks.isEmpty = false := Bool.eq_false_iff.mpr hempty
    have hbne : blocks ≠ [] := by
      intro hc
      rw [hc] at hemptyf
      exact absurd hemptyf (by decide)
    cases hfp : findTargetPage blocks (build_block_index blocks).1 targetPhrase with
    | none =>
      refine ⟨_, ?_, Or.inr (Or.inr (Or.inl ⟨hbne, rfl, rfl⟩))⟩
      simp [analyze_eq, hemptyf, hfp]
    | some tp =>
      by_cases htab : (get_tables_on_page blocks tp).isEmpty
      · refine ⟨_, ?_,
          Or.inr (Or.inr (Or.inr (Or.inl ⟨tp, rfl, List.isEmpty_iff.mp htab, rfl⟩)))⟩
        simp [analyze_eq, hemptyf, hfp, htab]
      · have htabf : (get_tables_on_page blocks tp).isEmpty = false :=
          Bool.eq_false_iff.mpr htab
        have htabne : get_tables_on_page blocks tp ≠ [] := by
          intro hc
          rw [hc] at htabf
          exact absurd htabf (by decide)
        have hsome : ∀ tbl ∈ get_tables_on_page blocks tp,
            ∃ r, tryTable (build_block_index blocks).1 tp target_year tbl = some r :=
          fun tbl _ => tryTable_isSome blocks hwf tp target_year tbl
        rcases tryTables_spec (build_block_index blocks).1 tp target_year
            (get_tables_on_page blocks tp) hsome with
          ⟨htry, hall⟩ | ⟨v, d, htry, hv⟩
        · refine ⟨_, ?_,
            Or.inr (Or.inr (Or.inr (Or.inr ⟨tp, rfl, htabne, hall, rfl⟩)))⟩
          simp [analyze_eq, hemptyf, hfp, htabf, htry]
        · refine ⟨(some v, d), ?_, Or.inl ⟨v, d, rfl, hv⟩⟩
          simp [analyze_eq, hemptyf, hfp, htabf, htry]

/-- Witness for C3 on the empty collection. -/
theorem C3_result_taxonomy_witness :
    (analyze_pdf_and_extract [] none).isSome = true := by
  obtain ⟨r, hr, -⟩ := C3_result_taxonomy [] none (by simp)
  rw [hr]
  rfl

/-- C3 as frozen is false on malformed indices: on `crashBlocks` the target
page and table are found, but the placement loop reads `matrix[-6]` on a
1-row grid (cell `RowIndex = -5`), which raises `IndexError` in Python, so
the core returns neither of the two shapes; the model yields `none`. -/
theorem C3_counterexample :
    analyze_pdf_and_extract crashBlocks none = none := by decide

theorem headerLookup_none (matrix : List (List String)) (target_year : Option String)
    (h : target_year = none ∨ ∃ y, target_year = some y ∧
      (y = "" ∨ find_column_index_by_header matrix y = none)) :
    headerLookup matrix target_year = none := by
  rcases h with rfl | ⟨y, rfl, hy⟩
  · rfl
  · show (if y = "" then none else find_column_index_by_header matrix y) = none
    by_cases hy0 : y = ""
    · rw [if_pos hy0]
    · rw [if_neg hy0]
      rcases hy with rfl | hy
      · exact absurd rfl hy0
      · exact hy

/-- C4: when no usable target year is supplied (absent, empty, or not found
by the header search), column resolution falls back to index 1 whenever the
first row has at least two columns, and fails otherwise, making that table's
lookup absent. -/
theorem C4_fallback_column :
    (∀ (matrix : List (List String)) (target_year : Option String),
      2 ≤ (matrix.headD []).length →
      (target_year = none ∨ ∃ y, target_year = some y ∧
        (y = "" ∨ find_column_index_by_header matrix y = none)) →
      resolveColumn matrix target_year = some 1) ∧
    (∀ (target_page : Int) (matrix : List (List String))
        (target_year : Option String),
      (matrix.headD []).length < 2 →
      (target_year = none ∨ ∃ y, target_year = some y ∧
        (y = "" ∨ find_column_index_by_header matrix y = none)) →
      resolveColumn matrix target_year = none ∧
      resolveFromMatrix target_page matrix target_year = none) := by
  constructor
  · intro matrix target_year hlen hsel
    simp only [resolveColumn, headerLookup_none matrix target_year hsel]
    rw [if_pos hlen]
  · intro target_page matrix target_year hlen hsel
    have hrc : resolveColumn matrix target_year = none := by
      simp only [resolveColumn, headerLookup_none matrix target_year hsel]
      rw [if_neg (by omega)]
    refine ⟨hrc, ?_⟩
    unfold resolveFromMatrix
    by_cases hg : (matrix.isEmpty || (matrix.headD []).isEmpty) = true
    · rw [if_pos hg]
    · rw [if_neg hg]
      cases hfr : find_row_index_by_label matrix ("Revenue") with
      | none => simp [hrc, hfr]
      | some ri => simp [hrc, hfr]

/-- Witness for C4: second-column fallback on a 1x2 matrix with no target
year. -/
theorem C4_fallback_column_witness :
    resolveColumn [["a", "b"]] none = some 1 :=
  C4_fallback_column.1 [["a", "b"]] none (by decide) (Or.inl rfl)

/-- C5: the resolver matches modulo normalization — both finders are
invariant under replacing the query by one with the same normalized form
(covering case changes and leading/trailing whitespace), the per-cell
comparison is likewise invariant in the cell text and accepts substring
containment of the normalized query, and concretely a header `2024` is
matched by queries `2024` and `2024 `, and label `revenue` matches the
stored row label `Revenue, net`. -/
theorem C5_resolver_normalization :
    (∀ (table : List (List String)) (q q' : String),
      normalizeStr q = normalizeStr q' →
      find_column_index_by_header table q = find_column_index_by_header table q') ∧
    (∀ (table : List (List String)) (q q' : String),
      normalizeStr q = normalizeStr q' →
      find_row_index_by_label table q = find_row_index_by_label table q') ∧
    (∀ (target v v' : String), normalizeStr v = normalizeStr v' →
      matchCell target v = matchCell target v') ∧
    (∀ (target v : String), pyIn target (normalizeStr v) = true →
      matchCell target v = true) ∧
    find_column_index_by_header [["", "2024"]] ("2024") = some 1 ∧
    find_column_index_by_header [["", "2024"]] ("2024 ") = some 1 ∧
    find_row_index_by_label [["Revenue, net", "5"]] ("revenue") = some 0 := by
  refine ⟨?_, ?_, ?_, ?_, by decide, by decide, by decide⟩
  · intro table q q' h
    unfold find_column_index_by_header
    rw [h]
  · intro table q q' h
    unfold find_row_index_by_label
    rw [h]
  · intro target v v' h
    unfold matchCell
    rw [h]
  · intro target v h
    unfold matchCell
    rw [h, Bool.or_true]

/-- Witness for C5: query invariance applied at a reflexive instance. -/
theorem C5_resolver_normalization_witness :
    find_column_index_by_header [["x"]] ("q") =
      find_column_index_by_header [["x"]] ("q") :=
  C5_resolver_normalization.1 [["x"]] ("q") ("q") rfl

/-- C6: text reconstruction returns a `WORD` block's raw text unchanged; for
any other block it equals the trimmed single-space join of exactly the raw
texts of its immediate `CHILD`-relationship children that are `WORD` blocks
with non-empty text (`childWordToken`; missing ids, `SELECTION_ELEMENT` and
other non-`WORD` children, and empty word texts contribute nothing, and no
deeper descendants are visited); `MERGED_CELL` relationships are ignored
(appending one never changes the result); and reconstruction is
deterministic. -/
theorem C6_text_reconstruction :
    (∀ (b : Block) (id_to_block : PyDict Block), b.blockType = "WORD" →
      extract_text_from_block b id_to_block = b.text.getD ("")) ∧
    (∀ (b : Block) (id_to_block : PyDict Block), b.blockType ≠ "WORD" →
      extract_text_from_block b id_to_block =
        pyStrip (String.intercalate (" ")
          ((childIdsCHILD b).filterMap (childWordToken id_to_block)))) ∧
    (∀ (b : Block) (id_to_block : PyDict Block) (mids : List String),
      extract_text_from_block
        { b with relationships :=
            b.relationships ++ [{ type := "MERGED_CELL", ids := mids }] }
        id_to_block =
      extract_text_from_block b id_to_block) ∧
    (∀ (b : Block) (id_to_block : PyDict Block),
      extract_text_from_block b id_to_block =
        extract_text_from_block b id_to_block) := by
  refine ⟨?_, ?_, ?_, fun b id_to_block => rfl⟩
  · intro b id_to_block h
    unfold extract_text_from_block
    rw [if_pos (by simp [h])]
  · intro b id_to_block h
    exact extract_text_nonword b id_to_block h
  · intro b id_to_block mids
    by_cases hw : b.blockType = "WORD"
    · unfold extract_text_from_block
      rw [if_pos (by simp [hw]), if_pos (by simp [hw])]
    · have hne : ({ b with relationships :=
          b.relationships ++ [{ type := "MERGED_CELL", ids := mids }] } :
            Block).blockType ≠ "WORD" := hw
      rw [extract_text_nonword _ _ hne, extract_text_nonword _ _ hw]
      have hch : childIdsCHILD
          { b with relationships :=
              b.relationships ++ [{ type := "MERGED_CELL", ids := mids }] } =
          childIdsCHILD b := by
        unfold childIdsCHILD
        rw [List.filter_append]
        have h2 : List.filter (fun rel => rel.type == "CHILD")
            [({ type := "MERGED_CELL", ids := mids } : Relationship)] = [] := rfl
        rw [h2, List.append_nil]
      rw [hch]

/-- Witness for C6: the WORD case at a concrete word block. -/
theorem C6_text_reconstruction_witness :
    extract_text_from_block cexWordA [] = cexWordA.text.getD ("") :=
  C6_text_reconstruction.1 cexWordA [] rfl

theorem page_contains_iff (blocks : List Block) (id_to_block : PyDict Block)
    (page : Int) (phrase : String) :
    page_contains_phrase blocks id_to_block page phrase = true ↔
      ∃ b ∈ blocks, b.page = some page ∧
        (b.blockType = "LINE" ∨ b.blockType = "CELL" ∨ b.blockType = "TABLE") ∧
        pyIn (pyLower phrase) (pyLower (extract_text_from_block b id_to_block)) =
          true := by
  unfold page_contains_phrase
  rw [List.any_eq_true]
  constructor
  · rintro ⟨b, hb, hpred⟩
    simp only [Bool.and_eq_true, Bool.or_eq_true, beq_iff_eq] at hpred
    refine ⟨b, hb, ?_, ?_, ?_⟩ <;> tauto
  · rintro ⟨b, hb, h1, h2, h3⟩
    refine ⟨b, hb, ?_⟩
    simp only [Bool.and_eq_true, Bool.or_eq_true, beq_iff_eq]
    tauto

/-- C8: the page locator holds iff some `LINE`, `CELL` or `TABLE` block of
that page has reconstructed text containing the phrase case-insensitively;
and the orchestrator's scan over the sorted distinct page numbers picks
exactly the smallest matching page (and misses none when it reports no
page). -/
theorem C8_page_location :
    (∀ (blocks : List Block) (id_to_block : PyDict Block) (page : Int)
        (phrase : String),
      page_contains_phrase blocks id_to_block page phrase = true ↔
        ∃ b ∈ blocks, b.page = some page ∧
          (b.blockType = "LINE" ∨ b.blockType = "CELL" ∨ b.blockType = "TABLE") ∧
          pyIn (pyLower phrase)
            (pyLower (extract_text_from_block b id_to_block)) = true) ∧
    (∀ (blocks : List Block) (id_to_block : PyDict Block) (phrase : String)
        (p : Int),
      findTargetPage blocks id_to_block phrase = some p →
        (∃ b ∈ blocks, b.page = some p) ∧
        page_contains_phrase blocks id_to_block p phrase = true ∧
        (∀ q : Int, (∃ b ∈ blocks, b.page = some q) →
          page_contains_phrase blocks id_to_block q phrase = true → p ≤ q)) ∧
    (∀ (blocks : List Block) (id_to_block : PyDict Block) (phrase : String),
      findTargetPage blocks id_to_block phrase = none →
      ∀ q : Int, (∃ b ∈ blocks, b.page = some q) →
        page_contains_phrase blocks id_to_block q phrase = false) :=
  ⟨page_contains_iff, findTargetPage_min, findTargetPage_none⟩

/-- Witness for C8 on the scenario document: the located page 1 matches. -/
theorem C8_page_location_witness :
    page_contains_phrase (scenarioBlocks ("Revenue"))
      (build_block_index (scenarioBlocks ("Revenue"))).1 1 targetPhrase = true :=
  (C8_page_location.2.1 (scenarioBlocks ("Revenue"))
    (build_block_index (scenarioBlocks ("Revenue"))).1 targetPhrase 1
    (by decide)).2.1

theorem dictInsert_fresh {α : Type} (m : PyDict α) (k : String) (v : α)
    (h : ∀ p ∈ m, p.1 ≠ k) : dictInsert m k v = m ++ [(k, v)] := by
  unfold dictInsert
  rw [if_neg]
  intro hany
  obtain ⟨p, hp, hpk⟩ := List.any_eq_true.mp hany
  exact h p hp (eq_of_beq hpk)

theorem indexChildIds_eq (b : Block) :
    indexChildIds b =
      ((b.relationships.filter
        (fun rel => rel.type == "CHILD" || rel.type == "MERGED_CELL")).map
        (fun rel => rel.ids)).flatten := by
  unfold indexChildIds
  suffices h : ∀ (rels : List Relationship) (acc : List String),
      rels.foldl
        (fun acc rel =>
          if rel.type == "CHILD" || rel.type == "MERGED_CELL" then acc ++ rel.ids
          else acc) acc =
      acc ++
        ((rels.filter
          (fun rel => rel.type == "CHILD" || rel.type == "MERGED_CELL")).map
          (fun rel => rel.ids)).flatten by
    rw [h b.relationships []]
    rfl
  intro rels
  induction rels with
  | nil => intro acc; simp
  | cons r rest ih =>
    intro acc
    rw [List.foldl_cons]
    by_cases hr : (r.type == "CHILD" || r.type == "MERGED_CELL") = true
    · rw [if_pos hr, ih]
      have hfil : List.filter
          (fun rel => rel.type == "CHILD" || rel.type == "MERGED_CELL")
          (r :: rest) =
          r :: List.filter
            (fun rel => rel.type == "CHILD" || rel.type == "MERGED_CELL") rest := by
        simp [List.filter_cons, hr]
      rw [hfil, List.map_cons, List.flatten_cons, List.append_assoc]
    · rw [if_neg hr, ih]
      have hfil : List.filter
          (fun rel => rel.type == "CHILD" || rel.type == "MERGED_CELL")
          (r :: rest) =
          List.filter
            (fun rel => rel.type == "CHILD" || rel.type == "MERGED_CELL") rest := by
        simp [List.filter_cons, Bool.eq_false_iff.mpr hr]
      rw [hfil]

theorem indexFold_char :
    ∀ (bs : List Block) (acc1 : PyDict Block) (acc2 : PyDict (List String)),
      (∀ b ∈ bs, ∀ p ∈ acc1, p.1 ≠ b.id) →
      (∀ b ∈ bs, ∀ p ∈ acc2, p.1 ≠ b.id) →
      (bs.map (fun b => b.id)).Nodup →
      bs.foldl indexStep (acc1, acc2) =
        (acc1 ++ bs.map (fun b => (b.id, b)),
         acc2 ++ (bs.filter (fun b => !(indexChildIds b).isEmpty)).map
           (fun b => (b.id, indexChildIds b))) := by
  intro bs
  induction bs with
  | nil => intro acc1 acc2 _ _ _; simp
  | cons b rest ih =>
    intro acc1 acc2 h1 h2 hnd
    have hndc := List.nodup_cons.mp hnd
    have hstep : indexStep (acc1, acc2) b =
        (acc1 ++ [(b.id, b)],
         if indexChildIds b ≠ [] then acc2 ++ [(b.id, indexChildIds b)]
         else acc2) := by
      unfold indexStep
      rw [dictInsert_fresh acc1 b.id b
        (fun p hp => h1 b (List.mem_cons_self b rest) p hp)]
      by_cases hch : indexChildIds b ≠ []
      · rw [if_pos hch, if_pos hch, dictInsert_fresh acc2 b.id _
          (fun p hp => h2 b (List.mem_cons_self b rest) p hp)]
      · rw [if_neg hch, if_neg hch]
    rw [List.foldl_cons, hstep]
    have hfresh1 : ∀ x ∈ rest, ∀ p ∈ acc1 ++ [(b.id, b)], p.1 ≠ x.id := by
      intro x hx p hp
      rcases List.mem_append.mp hp with hpm | hpo
      · exact h1 x (List.mem_cons_of_mem b hx) p hpm
      · obtain rfl := List.mem_singleton.mp hpo
        intro hc
        have hc2 : b.id = x.id := hc
        apply hndc.1
        have hmem : x.id ∈ List.map (fun b => b.id) rest :=
          List.mem_map.mpr ⟨x, hx, rfl⟩
        rw [← hc2] at hmem
        exact hmem
    have hfresh2 : ∀ x ∈ rest, ∀ p ∈
        (if indexChildIds b ≠ [] then acc2 ++ [(b.id, indexChildIds b)]
         else acc2), p.1 ≠ x.id := by
      intro x hx p hp
      by_cases hch : indexChildIds b ≠ []
      · rw [if_pos hch] at hp
        rcases List.mem_append.mp hp with hpm | hpo
        · exact h2 x (List.mem_cons_of_mem b hx) p hpm
        · obtain rfl := List.mem_singleton.mp hpo
          intro hc
          have hc2 : b.id = x.id := hc
          apply hndc.1
          have hmem : x.id ∈ List.map (fun b => b.id) rest :=
            List.mem_map.mpr ⟨x, hx, rfl⟩
          rw [← hc2] at hmem
          exact hmem
      · rw [if_neg hch] at hp
        exact h2 x (List.mem_cons_of_mem b hx) p hp
    rw [ih (acc1 ++ [(b.id, b)]) _ hfresh1 hfresh2 hndc.2]
    rw [Prod.mk.injEq]
    constructor
    · rw [List.map_cons, List.append_assoc]
      rfl
    · by_cases hch : indexChildIds b ≠ []
      · rw [if_pos hch]
        have hfil : List.filter (fun x => !(indexChildIds x).isEmpty) (b :: rest) =
            b :: List.filter (fun x => !(indexChildIds x).isEmpty) rest := by
          simp [List.filter_cons, List.isEmpty_iff, hch]
        rw [hfil, List.map_cons, List.append_assoc]
        rfl
      · rw [if_neg hch]
        have hfil : List.filter (fun x => !(indexChildIds x).isEmpty) (b :: rest) =
            List.filter (fun x => !(indexChildIds x).isEmpty) rest := by
          simp only [not_not] at hch
          simp [List.filter_cons, List.isEmpty_iff, hch]
        rw [hfil]

theorem assoc_lookup {α : Type} (f : Block → α) :
    ∀ (bs : List Block), (bs.map (fun b => b.id)).Nodup →
      ∀ b ∈ bs, dictGet? (bs.map (fun b => (b.id, f b))) b.id = some (f b) := by
  intro bs
  induction bs with
  | nil => intro _ b hb; exact absurd hb (List.not_mem_nil b)
  | cons x rest ih =>
    intro hnd b hb
    have hndc := List.nodup_cons.mp hnd
    rw [List.map_cons]
    rcases List.mem_cons.mp hb with rfl | hbm
    · unfold dictGet?
      rw [List.find?_cons]
      have : ((b.id, f b).1 == b.id) = true := by simp
      rw [this]
      rfl
    · have hne : (x.id == b.id) = false := by
        rw [beq_eq_false_iff_ne]
        intro hc
        apply hndc.1
        have hmem : b.id ∈ List.map (fun b => b.id) rest :=
          List.mem_map.mpr ⟨b, hbm, rfl⟩
        rw [← hc] at hmem
        exact hmem
      unfold dictGet?
      rw [List.find?_cons]
      have hc : ((x.id, f x).1 == b.id) = false := hne
      rw [hc]
      exact ih hndc.2 b hbm

/-- C9 as frozen is false when two elements share an identifier: the dict
assignment `id_to_block[block_id] = block` keeps only the last element for
that key, so the first of `dupFirst`/`dupSecond` (both with id `X`) is not
mapped to by its identifier. -/
theorem C9_counterexample :
    dupFirst ∈ [dupFirst, dupSecond] ∧
    dictGet? (build_block_index [dupFirst, dupSecond]).1 dupFirst.id =
      some dupSecond ∧
    dupSecond ≠ dupFirst :=
  ⟨by decide, by decide, by decide⟩

/-- C9 amended: for collections with pairwise-distinct identifiers, the
id-to-element map holds every element's identifier exactly once as a key,
mapping it to that element, and every `CHILD` or `MERGED_CELL` relationship
target appears in the source element's child-id list. -/
theorem C9_amended_index_completeness (blocks : List Block)
    (hnodup : (blocks.map (fun b => b.id)).Nodup) :
    (∀ b ∈ blocks, dictGet? (build_block_index blocks).1 b.id = some b) ∧
    ((build_block_index blocks).1.map (fun p => p.1)).Nodup ∧
    (∀ b ∈ blocks, ∀ rel ∈ b.relationships,
      (rel.type = "CHILD" ∨ rel.type = "MERGED_CELL") →
      ∀ i ∈ rel.ids,
        i ∈ (dictGet? (build_block_index blocks).2 b.id).getD []) := by
  have hchar := indexFold_char blocks [] []
    (fun b _ p hp => absurd hp (List.not_mem_nil p))
    (fun b _ p hp => absurd hp (List.not_mem_nil p)) hnodup
  have h1 : (build_block_index blocks).1 = blocks.map (fun b => (b.id, b)) := by
    unfold build_block_index
    rw [hchar]
    simp
  have h2 : (build_block_index blocks).2 =
      (blocks.filter (fun b => !(indexChildIds b).isEmpty)).map
        (fun b => (b.id, indexChildIds b)) := by
    unfold build_block_index
    rw [hchar]
    simp
  refine ⟨?_, ?_, ?_⟩
  · intro b hb
    rw [h1]
    exact assoc_lookup (fun b => b) blocks hnodup b hb
  · rw [h1, List.map_map]
    exact hnodup
  · intro b hb rel hrel htype i hi
    have hmem : i ∈ indexChildIds b := by
      rw [indexChildIds_eq]
      refine List.mem_flatten.mpr ⟨rel.ids, ?_, hi⟩
      refine List.mem_map.mpr ⟨rel, ?_, rfl⟩
      refine List.mem_filter.mpr ⟨hrel, ?_⟩
      rcases htype with h | h <;> simp [h]
    have hne : indexChildIds b ≠ [] := by
      intro h0
      rw [h0] at hmem
      exact absurd hmem (List.not_mem_nil i)
    rw [h2]
    have hnd2 : ((blocks.filter
        (fun b => !(indexChildIds b).isEmpty)).map (fun b => b.id)).Nodup :=
      List.Nodup.sublist (List.Sublist.map _ (List.filter_sublist blocks)) hnodup
    have hbf : b ∈ blocks.filter (fun b => !(indexChildIds b).isEmpty) :=
      List.mem_filter.mpr ⟨hb, by simp [List.isEmpty_iff, hne]⟩
    rw [assoc_lookup indexChildIds _ hnd2 b hbf]
    exact hmem

/-- Witness for the amended C9 on the scenario document. -/
theorem C9_amended_witness :
    dictGet? (build_block_index (scenarioBlocks ("Revenue"))).1 scenarioTable.id =
      some scenarioTable :=
  (C9_amended_index_completeness (scenarioBlocks ("Revenue")) (by decide)).1
    scenarioTable (by decide)

theorem extract_no_word_children (b : Block) (id_to_block : PyDict Block)
    (hb : b.blockType ≠ "WORD")
    (hch : ∀ cid ∈ childIdsCHILD b, ∀ c,
      dictGet? id_to_block cid = some c → c.blockType ≠ "WORD") :
    extract_text_from_block b id_to_block = "" := by
  rw [extract_text_nonword b id_to_block hb]
  have hnil : (childIdsCHILD b).filterMap (childWordToken id_to_block) = [] := by
    rw [List.filterMap_eq_nil_iff]
    intro cid hcid
    unfold childWordToken
    cases hg : dictGet? id_to_block cid with
    | none => rfl
    | some c =>
      rw [Option.some_bind]
      rw [if_neg (by simp [hch cid hcid c hg])]
  rw [hnil]
  decide

theorem pyIn_lower_empty {phrase : String} (h : phrase ≠ "") :
    pyIn (pyLower phrase) (pyLower ("")) = false := by
  apply Bool.eq_false_iff.mpr
  intro htrue
  have hinf := (pyIn_iff _ _).mp htrue
  have h0 : (pyLower ("")).data = [] := rfl
  rw [h0] at hinf
  have hd : (pyLower phrase).data = [] := List.infix_nil.mp hinf
  exact pyLower_ne_empty h (String.ext hd)

/-- C10 (implicit): a `TABLE` element none of whose immediate `CHILD`
targets resolves to a `WORD` block reconstructs to the empty string, hence
can never satisfy the page locator's substring check for a non-empty
phrase; consequently page location does not change when all such `TABLE`
elements are removed — it depends only on `LINE` and `CELL` text. -/
theorem C10_table_text_invisible :
    (∀ (table_block : Block) (id_to_block : PyDict Block),
      table_block.blockType = "TABLE" →
      (∀ cid ∈ childIdsCHILD table_block, ∀ c,
        dictGet? id_to_block cid = some c → c.blockType ≠ "WORD") →
      extract_text_from_block table_block id_to_block = "" ∧
      (∀ phrase : String, phrase ≠ "" →
        pyIn (pyLower phrase)
          (pyLower (extract_text_from_block table_block id_to_block)) = false)) ∧
    (∀ (blocks : List Block) (id_to_block : PyDict Block) (page : Int)
        (phrase : String), phrase ≠ "" →
      (∀ b ∈ blocks, b.blockType = "TABLE" →
        ∀ cid ∈ childIdsCHILD b, ∀ c, dictGet? id_to_block cid = some c →
          c.blockType ≠ "WORD") →
      page_contains_phrase blocks id_to_block page phrase =
        page_contains_phrase (blocks.filter (fun b => b.blockType != "TABLE"))
          id_to_block page phrase) := by
  constructor
  · intro table_block id_to_block htb hch
    have hext : extract_text_from_block table_block id_to_block = "" :=
      extract_no_word_children table_block id_to_block (by rw [htb]; decide) hch
    refine ⟨hext, ?_⟩
    intro phrase hph
    rw [hext]
    exact pyIn_lower_empty hph
  · intro blocks id_to_block page phrase hph hyp
    rw [Bool.eq_iff_iff, page_contains_iff, page_contains_iff]
    constructor
    · rintro ⟨b, hb, hpage, htype, hpy⟩
      refine ⟨b, ?_, hpage, htype, hpy⟩
      refine List.mem_filter.mpr ⟨hb, ?_⟩
      by_cases hbt : b.blockType = "TABLE"
      · exfalso
        have hext : extract_text_from_block b id_to_block = "" :=
          extract_no_word_children b id_to_block (by rw [hbt]; decide)
            (hyp b hb hbt)
        rw [hext, pyIn_lower_empty hph] at hpy
        exact absurd hpy (by decide)
      · simp [hbt]
    · rintro ⟨b, hb, hpage, htype, hpy⟩
      exact ⟨b, (List.mem_filter.mp hb).1, hpage, htype, hpy⟩

/-- Witness for C10 at a concrete table whose children are all cells. -/
theorem C10_table_text_invisible_witness :
    extract_text_from_block cexTable cexDict = "" := by
  refine (C10_table_text_invisible.1 cexTable cexDict rfl ?_).1
  intro cid hcid c hc
  have he : childIdsCHILD cexTable = ["A", "B"] := by decide
  rw [he] at hcid
  simp only [List.mem_cons, List.not_mem_nil, or_false] at hcid
  rcases hcid with rfl | rfl
  · rw [show dictGet? cexDict ("A") = some cexCellA from rfl] at hc
    obtain rfl := Option.some.inj hc
    decide
  · rw [show dictGet? cexDict ("B") = some cexCellB from rfl] at hc
    obtain rfl := Option.some.inj hc
    decide
